import Mathlib

/-!
# Verification of the garbling core (`garbling/core/src/lib.rs`)

A shallow embedding of the garbled-circuit generator: the SHA-256 based
hash pad, the wire-label data model, the garbling state machine
(`garble_ckt`), the Bristol-format circuit loader (`parse_bristol`) and
the label generator (`gen_labels`), together with theorems settling the
specified properties.

Machine bytes are modelled as `Nat` values `< 256`; 32-bit words as `Nat`
values reduced `% 2^32`; a Rust panic (failed `unwrap`, out-of-bounds
index) is modelled as `none`; an `anyhow::Result` error as `Except.error`.
-/

namespace Garbling

/-! ## SHA-256 (the `sha2` crate primitive used by `pad_sha`)

The program hashes exactly one 64-byte block: two 16-byte labels plus
mandatory padding.  We implement SHA-256 (FIPS 180-4) for 32-byte
messages over `Nat`, reducing modulo `2^32` where the machine overflows. -/

/-- Truncated right rotation of a 32-bit word. -/
def rotr32 (n x : Nat) : Nat := ((x >>> n) ||| (x <<< (32 - n))) % 4294967296

/-- Modular 32-bit addition. -/
def add32 (a b : Nat) : Nat := (a + b) % 4294967296

/-- Bitwise 32-bit complement. -/
def not32 (x : Nat) : Nat := Nat.xor x 4294967295

/-- SHA-256 `Ch` function. -/
def sha_ch (x y z : Nat) : Nat := Nat.xor (Nat.land x y) (Nat.land (not32 x) z)

/-- SHA-256 `Maj` function. -/
def sha_maj (x y z : Nat) : Nat :=
  Nat.xor (Nat.xor (Nat.land x y) (Nat.land x z)) (Nat.land y z)

/-- SHA-256 big sigma 0. -/
def bsig0 (x : Nat) : Nat := Nat.xor (Nat.xor (rotr32 2 x) (rotr32 13 x)) (rotr32 22 x)

/-- SHA-256 big sigma 1. -/
def bsig1 (x : Nat) : Nat := Nat.xor (Nat.xor (rotr32 6 x) (rotr32 11 x)) (rotr32 25 x)

/-- SHA-256 small sigma 0. -/
def ssig0 (x : Nat) : Nat := Nat.xor (Nat.xor (rotr32 7 x) (rotr32 18 x)) (x >>> 3)

/-- SHA-256 small sigma 1. -/
def ssig1 (x : Nat) : Nat := Nat.xor (Nat.xor (rotr32 17 x) (rotr32 19 x)) (x >>> 10)

/-- The 64 SHA-256 round constants. -/
def shaK : List Nat :=
  [1116352408, 1899447441, 3049323471, 3921009573, 961987163, 1508970993,
   2453635748, 2870763221, 3624381080, 310598401, 607225278, 1426881987,
   1925078388, 2162078206, 2614888103, 3248222580, 3835390401, 4022224774,
   264347078, 604807628, 770255983, 1249150122, 1555081692, 1996064986,
   2554220882, 2821834349, 2952996808, 3210313671, 3336571891, 3584528711,
   113926993, 338241895, 666307205, 773529912, 1294757372, 1396182291,
   1695183700, 1986661051, 2177026350, 2456956037, 2730485921, 2820302411,
   3259730800, 3345764771, 3516065817, 3600352804, 4094571909, 275423344,
   430227734, 506948616, 659060556, 883997877, 958139571, 1322822218,
   1537002063, 1747873779, 1955562222, 2024104815, 2227730452, 2361852424,
   2428436474, 2756734187, 3204031479, 3329325298]

/-- Big-endian conversion of a byte list into 32-bit words. -/
def bytesToWords : List Nat → List Nat
  | a :: b :: c :: d :: rest => (((a * 256 + b) * 256 + c) * 256 + d) :: bytesToWords rest
  | _ => []

/-- Big-endian bytes of one 32-bit word. -/
def wordToBytes (w : Nat) : List Nat :=
  [w / 16777216 % 256, w / 65536 % 256, w / 256 % 256, w % 256]

/-- Message-schedule extension: appends `fuel` further words
`w[t] = ssig1 w[t-2] + w[t-7] + ssig0 w[t-15] + w[t-16]`. -/
def extendSched (ws : List Nat) : Nat → List Nat
  | 0 => ws
  | fuel + 1 =>
      extendSched
        (ws ++ [add32 (add32 (ssig1 (ws.getD (ws.length - 2) 0)) (ws.getD (ws.length - 7) 0))
                  (add32 (ssig0 (ws.getD (ws.length - 15) 0)) (ws.getD (ws.length - 16) 0))])
        fuel

/-- The eight 32-bit working registers of the compression function. -/
structure ShaState where
  a : Nat
  b : Nat
  c : Nat
  d : Nat
  e : Nat
  f : Nat
  g : Nat
  h : Nat
deriving DecidableEq

/-- The SHA-256 initialisation vector. -/
def shaIV : ShaState :=
  ⟨1779033703, 3144134277, 1013904242, 2773480762,
   1359893119, 2600822924, 528734635, 1541459225⟩

/-- One SHA-256 compression round with round constant `k` and schedule word `w`. -/
def shaRound (st : ShaState) (k w : Nat) : ShaState :=
  let t1 := add32 st.h (add32 (bsig1 st.e) (add32 (sha_ch st.e st.f st.g) (add32 k w)))
  let t2 := add32 (bsig0 st.a) (sha_maj st.a st.b st.c)
  ⟨add32 t1 t2, st.a, st.b, st.c, add32 st.d t1, st.e, st.f, st.g⟩

/-- Pointwise 32-bit addition of two register files. -/
def shaAdd (x y : ShaState) : ShaState :=
  ⟨add32 x.a y.a, add32 x.b y.b, add32 x.c y.c, add32 x.d y.d,
   add32 x.e y.e, add32 x.f y.f, add32 x.g y.g, add32 x.h y.h⟩

/-- Big-endian byte serialisation of a register file. -/
def stateBytes (st : ShaState) : List Nat :=
  wordToBytes st.a ++ wordToBytes st.b ++ wordToBytes st.c ++ wordToBytes st.d ++
  wordToBytes st.e ++ wordToBytes st.f ++ wordToBytes st.g ++ wordToBytes st.h

/-- SHA-256 digest (32 bytes) of a 32-byte message: the only case the
program exercises (`Sha256::new` updated with two 16-byte labels).  The
single padded block is `msg ++ 0x80 ++ 0^23 ++ be64(256)`. -/
def sha256_32 (msg : List Nat) : List Nat :=
  let block := msg ++ 0x80 :: (List.replicate 23 0 ++ [0, 0, 0, 0, 0, 0, 1, 0])
  let sched := extendSched (bytesToWords block) 48
  let final := (shaK.zip sched).foldl (fun st kw => shaRound st kw.1 kw.2) shaIV
  stateBytes (shaAdd shaIV final)

/-! ## Data model (`lib.rs` types) -/

/-- Rust `pub const SEED: [u8; 32] = [0; 32];` -/
def SEED : List Nat := List.replicate 32 0

/-- Rust `pub type Label = [u8; 16];` — a 16-byte wire label. -/
abbrev Label := List Nat

/-- Rust `fn xor_labels(a: &Label, b: &Label) -> Label` — bytewise XOR. -/
def xor_labels (a b : Label) : Label := List.zipWith Nat.xor a b

/-- Rust `fn pad_sha(ka: &Label, kb: &Label) -> Label` — SHA-256 of the
concatenation of the two labels, truncated to its first 16 bytes. -/
def pad_sha (ka kb : Label) : Label := (sha256_32 (ka ++ kb)).take 16

/-- Rust `struct WireLabels { k0: Label, k1: Label }` -/
structure WireLabels where
  k0 : Label
  k1 : Label
deriving DecidableEq

/-- Rust `enum GateDef` — one parsed gate. -/
inductive GateDef
  | And (in0 in1 out : Nat)
  | Xor (in0 in1 out : Nat)
  | Not (input out : Nat)
deriving DecidableEq

/-- Rust `struct CircuitInput` — the parsed circuit. -/
structure CircuitInput where
  total_gate_count : Nat
  and_gate_count : Nat
  xor_gate_count : Nat
  not_gate_count : Nat
  total_wire_count : Nat
  input1_count : Nat
  input2_count : Nat
  output_wire_count : Nat
  gates : List GateDef
deriving DecidableEq

/-- Rust `CircuitInput::get_input_wire_count` -/
def CircuitInput.get_input_wire_count (c : CircuitInput) : Nat :=
  c.input1_count + c.input2_count

/-- Rust `CircuitInput::get_inner_wire_label_count` -/
def CircuitInput.get_inner_wire_label_count (c : CircuitInput) : Nat :=
  c.and_gate_count + c.not_gate_count

/-- Rust `struct LabelInputs` -/
structure LabelInputs where
  delta : Label
  input_labels : List Label
  inner_labels : List Label
deriving DecidableEq

/-- Rust `struct AndGateTable` — four ciphertexts ordered (a=0,b=0) .. (1,1). -/
structure AndGateTable where
  gate : Nat
  in0 : Nat
  in1 : Nat
  out : Nat
  table : List Label
deriving DecidableEq

/-- Rust `struct NotGateTable` — two ciphertexts indexed by the input bit. -/
structure NotGateTable where
  gate : Nat
  input : Nat
  out : Nat
  table : List Label
deriving DecidableEq

/-- Rust `struct GarbledOutput` -/
structure GarbledOutput where
  and_tables : List AndGateTable
  not_tables : List NotGateTable
deriving DecidableEq

/-! ## The garbler engine (`garble_ckt`)

The mutable locals of the Rust loop — the wire-label arena, the
`inner_labels` iterator and the two output table vectors — form the
state; each loop iteration is `garble_step`.  `none` models a panic
(`unwrap` of an empty slot or exhausted iterator, index out of bounds). -/

/-- The mutable state of one garbling pass. -/
structure GarbleState where
  wires : List (Option WireLabels)
  inner : List Label
  and_tables : List AndGateTable
  not_tables : List NotGateTable
deriving DecidableEq

/-- One iteration of the gate loop of `garble_ckt` on gate `g` at
enumeration index `idx`. -/
def garble_step (delta : Label) (idx : Nat) (g : GateDef) (s : GarbleState) :
    Option GarbleState :=
  match g with
  | .Xor in0 in1 outw =>
    match s.wires[in0]?, s.wires[in1]? with
    | some (some lu), some (some lv) =>
      if outw < s.wires.length then
        let k0 := xor_labels lu.k0 lv.k0
        some { s with wires := s.wires.set outw (some ⟨k0, xor_labels k0 delta⟩) }
      else none
    | _, _ => none
  | .And in0 in1 outw =>
    match s.wires[in0]?, s.wires[in1]? with
    | some (some lu), some (some lv) =>
      match s.inner with
      | [] => none
      | k0_out :: rest =>
        if outw < s.wires.length then
          let k1_out := xor_labels k0_out delta
          let table := [(0, 0), (0, 1), (1, 0), (1, 1)].map (fun ab =>
            let ka := if ab.1 = 0 then lu.k0 else lu.k1
            let kb := if ab.2 = 0 then lv.k0 else lv.k1
            let kout := if ab.1 &&& ab.2 = 0 then k0_out else k1_out
            xor_labels (pad_sha ka kb) kout)
          some ⟨s.wires.set outw (some ⟨k0_out, k1_out⟩), rest,
                s.and_tables ++ [⟨idx, in0, in1, outw, table⟩], s.not_tables⟩
        else none
    | _, _ => none
  | .Not inw outw =>
    match s.wires[inw]? with
    | some (some lu) =>
      match s.inner with
      | [] => none
      | k0_out :: rest =>
        if outw < s.wires.length then
          let k1_out := xor_labels k0_out delta
          let table := [0, 1].map (fun a =>
            let ka := if a = 0 then lu.k0 else lu.k1
            let kout := if 1 - a = 0 then k0_out else k1_out
            xor_labels (pad_sha ka ka) kout)
          some ⟨s.wires.set outw (some ⟨k0_out, k1_out⟩), rest,
                s.and_tables, s.not_tables ++ [⟨idx, inw, outw, table⟩]⟩
        else none
    | _ => none

/-- Rust `for (idx, gate) in gates.iter().enumerate() { ... }` -/
def garble_gates (delta : Label) : Nat → List GateDef → GarbleState → Option GarbleState
  | _, [], s => some s
  | idx, g :: rest, s =>
    match garble_step delta idx g s with
    | some s' => garble_gates delta (idx + 1) rest s'
    | none => none

/-- The initial wire arena: one populated slot per entry of
`input_labels` (with `k1 = k0 XOR delta`), then one empty slot for each
index from `input1_count+input2_count` up to `total_wire_count`. -/
def initWires (wcnt in12 : Nat) (input_labels : List Label) (delta : Label) :
    List (Option WireLabels) :=
  input_labels.map (fun k0 => some ⟨k0, xor_labels k0 delta⟩) ++
    List.replicate (wcnt - in12) none

/-- Rust `pub fn garble_ckt(ckt_inputs: CircuitInput, label_inputs: LabelInputs) -> GarbledOutput`;
`none` models a panic. -/
def garble_ckt (ckt_inputs : CircuitInput) (label_inputs : LabelInputs) :
    Option GarbledOutput :=
  let s0 : GarbleState :=
    ⟨initWires ckt_inputs.total_wire_count
        (ckt_inputs.input1_count + ckt_inputs.input2_count)
        label_inputs.input_labels label_inputs.delta,
      label_inputs.inner_labels, [], []⟩
  match garble_gates label_inputs.delta 0 ckt_inputs.gates s0 with
  | some s => some ⟨s.and_tables, s.not_tables⟩
  | none => none

/-! ## The circuit loader (`parse_bristol`)

The file is modelled as its list of lines (`BufReader::read_line` past
the end of the file leaves the buffer empty, i.e. yields `""`).  The
result is `none` for a panic (a failed `unwrap`), `some (.error e)` for
an `anyhow` error propagated by `?` or raised by `bail!`, and
`some (.ok ckt)` on success. -/

/-- The error kind carried by Rust's `ParseIntError` (it records the
kind only, not the offending token or line). -/
inductive IntErrKind
  | empty
  | invalidDigit
  | posOverflow
deriving DecidableEq

/-- The structured (`anyhow`) errors `parse_bristol` can return: a
propagated integer-parse failure, or the `bail!("unexpected gate `{}`", other)`
whose message names the offending opcode token. -/
inductive ParseErr
  | intErr (kind : IntErrKind)
  | unexpectedGate (tok : String)
deriving DecidableEq

/-- Numeric value of a digit string. -/
def digitsVal (cs : List Char) : Nat :=
  cs.foldl (fun acc c => 10 * acc + (c.toNat - 48)) 0

/-- Digit-run parsing after the optional sign, as in `usize::from_str`. -/
def parseDigits (cs : List Char) : Except IntErrKind Nat :=
  if cs = [] then .error .invalidDigit
  else if cs.all Char.isDigit then
    if digitsVal cs < 18446744073709551616 then .ok (digitsVal cs)
    else .error .posOverflow
  else .error .invalidDigit

/-- Rust `usize::from_str`: optional leading `+`, then a nonempty digit run,
64-bit range. -/
def parse_usize (s : String) : Except IntErrKind Nat :=
  match s.data with
  | [] => .error .empty
  | '+' :: rest => parseDigits rest
  | cs => parseDigits cs

/-- Whitespace tokenisation, as Rust's `split_whitespace` (empty tokens
are skipped). -/
def splitWsAux : List Char → List Char → List String
  | [], acc => if acc = [] then [] else [String.mk acc.reverse]
  | c :: cs, acc =>
    if c.isWhitespace then
      if acc = [] then splitWsAux cs []
      else String.mk acc.reverse :: splitWsAux cs []
    else splitWsAux cs (c :: acc)

/-- The whitespace-separated tokens of one line. -/
def tokensOf (line : String) : List String := splitWsAux line.data []

/-- The `i`-th line of the file, or `""` past the end. -/
def lineAt (lines : List String) (i : Nat) : String := lines.getD i ""

/-- Sequencing of panicking/fallible computations: a panic (`none`) and
an error both cut the rest of the function short. -/
def pstep {ε α β : Type} (x : Option (Except ε α))
    (f : α → Option (Except ε β)) : Option (Except ε β) :=
  match x with
  | none => none
  | some (.error e) => some (.error e)
  | some (.ok a) => f a

/-- Rust `parts.next().unwrap().parse()?` — panics (`none`) when the token is
missing, yields the `ParseIntError` when it does not parse. -/
def headerField (ts : List String) : Option (Except IntErrKind (Nat × List String)) :=
  match ts with
  | [] => none
  | t :: rest =>
    match parse_usize t with
    | .ok n => some (.ok (n, rest))
    | .error e => some (.error e)

/-- Four whitespace-separated header fields from one line's tokens. -/
def parse_header4 (ts : List String) :
    Option (Except IntErrKind (Nat × Nat × Nat × Nat)) :=
  pstep (headerField ts) fun ar =>
  pstep (headerField ar.2) fun br =>
  pstep (headerField br.2) fun cr =>
  pstep (headerField cr.2) fun dr =>
  some (.ok (ar.1, br.1, cr.1, dr.1))

/-- Rust `(0..in_arity).map(|_| p.next().unwrap().parse().unwrap())` — both
missing tokens and parse failures panic (`none`). -/
def collectInputs : Nat → List String → Option (List Nat × List String)
  | 0, ts => some ([], ts)
  | _ + 1, [] => none
  | n + 1, t :: ts =>
    match parse_usize t with
    | .error _ => none
    | .ok v =>
      match collectInputs n ts with
      | none => none
      | some (vs, rest) => some (v :: vs, rest)

/-- One gate line of the loop body of `parse_bristol`, from its tokens. -/
def parse_gate_line (ts : List String) : Option (Except ParseErr GateDef) :=
  match ts with
  | [] => none
  | gstr :: rest =>
    let in_arity := if gstr = "AND" ∨ gstr = "XOR" then 2 else 1
    match collectInputs in_arity rest with
    | none => none
    | some (inputs, rest2) =>
      match rest2 with
      | [] => none
      | otok :: _ =>
        match parse_usize otok with
        | .error e => some (.error (.intErr e))
        | .ok output =>
          if gstr = "AND" then
            some (.ok (.And (inputs.getD 0 0) (inputs.getD 1 0) output))
          else if gstr = "XOR" then
            some (.ok (.Xor (inputs.getD 0 0) (inputs.getD 1 0) output))
          else if gstr = "INV" then
            some (.ok (.Not (inputs.getD 0 0) output))
          else
            some (.error (.unexpectedGate gstr))

/-- The gate loop: `n` gate lines starting at line `lineIdx`. -/
def parse_gates (lines : List String) : Nat → Nat → Option (Except ParseErr (List GateDef))
  | _, 0 => some (.ok [])
  | lineIdx, n + 1 =>
    pstep (parse_gate_line (tokensOf (lineAt lines lineIdx))) fun g =>
    pstep (parse_gates lines (lineIdx + 1) n) fun gs =>
    some (.ok (g :: gs))

/-- Lifts the header's `ParseIntError` into the function's error type,
as the `?` conversion to `anyhow::Error` does. -/
def liftIntErr {α : Type} (x : Option (Except IntErrKind α)) :
    Option (Except ParseErr α) :=
  match x with
  | none => none
  | some (.error e) => some (.error (.intErr e))
  | some (.ok a) => some (.ok a)

/-- Rust `fn parse_bristol(path) -> anyhow::Result<CircuitInput>`, on the
file's lines.  Header line 0: gate counts; line 1: wire/input counts;
then `total_gate_count` gate lines. -/
def parse_bristol (lines : List String) : Option (Except ParseErr CircuitInput) :=
  pstep (liftIntErr (parse_header4 (tokensOf (lineAt lines 0)))) fun g4 =>
  pstep (liftIntErr (parse_header4 (tokensOf (lineAt lines 1)))) fun w4 =>
  pstep (parse_gates lines 2 g4.1) fun gates =>
  some (.ok
    { total_gate_count := g4.1
      and_gate_count := g4.2.1
      xor_gate_count := g4.2.2.1
      not_gate_count := g4.2.2.2
      total_wire_count := w4.1
      input1_count := w4.2.1
      input2_count := w4.2.2.1
      output_wire_count := w4.2.2.2
      gates := gates })

/-! ## The label generator (`gen_labels`)

`ChaCha12Rng::from_seed(SEED)` is a deterministic keystream fixed by the
seed; the `rand_chacha` crate is external to this repository, so the
keystream is abstracted as a function `stream : Nat → Nat` giving the
byte at each position, and `fill_bytes` of a 16-byte buffer consumes the
next 16 keystream bytes.  Everything `gen_labels` itself does — the draw
order and the loop structure — is translated from the source. -/

/-- The RNG: its seed-determined keystream and current position. -/
structure RngState where
  stream : Nat → Nat
  pos : Nat

/-- Rust `rng.fill_bytes(&mut buf)` for a 16-byte buffer. -/
def fill_bytes16 (r : RngState) : Label × RngState :=
  ((List.range 16).map (fun i => r.stream (r.pos + i) % 256),
   ⟨r.stream, r.pos + 16⟩)

/-- Rust `for _ in 0..n { rng.fill_bytes(&mut k0); v.push(k0) }` -/
def gen_fill_loop : Nat → RngState → List Label × RngState
  | 0, r => ([], r)
  | n + 1, r =>
    let lr := fill_bytes16 r
    let rest := gen_fill_loop n lr.2
    (lr.1 :: rest.1, rest.2)

/-- Rust `pub fn gen_labels(input_wire_count, inner_wire_count) -> LabelInputs`:
one delta, then the input-wire zero-labels, then the inner zero-labels,
drawn in that order from the seeded RNG. -/
def gen_labels (stream : Nat → Nat) (input_wire_count inner_wire_count : Nat) :
    LabelInputs :=
  let r0 : RngState := ⟨stream, 0⟩
  let dr := fill_bytes16 r0
  let ir := gen_fill_loop input_wire_count dr.2
  let nr := gen_fill_loop inner_wire_count ir.2
  ⟨dr.1, ir.1, nr.1⟩

/-! ## Helper lemmas -/

/-- The SHA-256 digest always has 32 bytes. -/
theorem sha256_32_length (m : List Nat) : (sha256_32 m).length = 32 := rfl

/-- The pad always has 16 bytes. -/
theorem pad_sha_length (a b : Label) : (pad_sha a b).length = 16 := by
  have h := sha256_32_length (a ++ b)
  simp [pad_sha, List.length_take, h]

/-- Length of `xor_labels` of equal-length labels has that length. -/
theorem xor_labels_length (a b : Label) : (xor_labels a b).length = min a.length b.length :=
  List.length_zipWith ..

/-- Bytewise XOR is self-cancelling on equal-length labels: the
decryption law behind every garbled-table entry. -/
theorem xor_labels_cancel (p k : Label) (h : p.length = k.length) :
    xor_labels p (xor_labels p k) = k := by
  induction p generalizing k with
  | nil =>
    cases k with
    | nil => rfl
    | cons b bs => simp at h
  | cons a as ih =>
    cases k with
    | nil => simp at h
    | cons b bs =>
      simp only [List.length_cons, Nat.add_right_cancel_iff] at h
      simp only [xor_labels, List.zipWith_cons_cons] at ih ⊢
      have hx : Nat.xor a (Nat.xor a b) = b := Nat.xor_cancel_left a b
      rw [hx, ih bs h]

/-! ## Concrete inputs used by the witnesses -/

/-- A concrete 16-byte delta. -/
def cdelta : Label := List.replicate 16 1

/-- Concrete wire labels for witness states. -/
def cwA : WireLabels := ⟨List.replicate 16 2, xor_labels (List.replicate 16 2) cdelta⟩

/-- Concrete wire labels for witness states. -/
def cwB : WireLabels := ⟨List.replicate 16 3, xor_labels (List.replicate 16 3) cdelta⟩

/-- A concrete inner label. -/
def cinner : Label := List.replicate 16 4

/-- A concrete garbling state: two populated input wires, one empty
output slot, one inner label available. -/
def sW : GarbleState := ⟨[some cwA, some cwB, none], [cinner], [], []⟩

/-! ## C1 — AND-gate table shape and correctness -/

/-- C1. Garbling an AND gate emits exactly 4 ciphertexts, positionally
ordered by (a,b) = (0,0),(0,1),(1,0),(1,1), with entry i equal to
`pad_sha(k_a(in0), k_b(in1)) XOR k_{a AND b}(out)` where `pad_sha` is the
SHA-256 hash of the two selected 16-byte labels truncated to its first
16 bytes; equivalently each entry decrypts back to `k_{a AND b}(out)`
under the matching pad. -/
theorem C1_and_gate_table (delta : Label) (idx in0 in1 outw : Nat) (s : GarbleState)
    (lu lv : WireLabels) (k0_out : Label) (rest : List Label)
    (hin0 : s.wires[in0]? = some (some lu)) (hin1 : s.wires[in1]? = some (some lv))
    (hinner : s.inner = k0_out :: rest) (hout : outw < s.wires.length)
    (hk : k0_out.length = 16) (hd : delta.length = 16) :
    garble_step delta idx (.And in0 in1 outw) s =
      some ⟨s.wires.set outw (some ⟨k0_out, xor_labels k0_out delta⟩), rest,
        s.and_tables ++
          [⟨idx, in0, in1, outw,
            [xor_labels (pad_sha lu.k0 lv.k0) k0_out,
             xor_labels (pad_sha lu.k0 lv.k1) k0_out,
             xor_labels (pad_sha lu.k1 lv.k0) k0_out,
             xor_labels (pad_sha lu.k1 lv.k1) (xor_labels k0_out delta)]⟩],
        s.not_tables⟩ ∧
    (∀ ka kb : Label, pad_sha ka kb = (sha256_32 (ka ++ kb)).take 16) ∧
    xor_labels (pad_sha lu.k0 lv.k0) (xor_labels (pad_sha lu.k0 lv.k0) k0_out) = k0_out ∧
    xor_labels (pad_sha lu.k0 lv.k1) (xor_labels (pad_sha lu.k0 lv.k1) k0_out) = k0_out ∧
    xor_labels (pad_sha lu.k1 lv.k0) (xor_labels (pad_sha lu.k1 lv.k0) k0_out) = k0_out ∧
    xor_labels (pad_sha lu.k1 lv.k1)
        (xor_labels (pad_sha lu.k1 lv.k1) (xor_labels k0_out delta)) =
      xor_labels k0_out delta := by
  refine ⟨?_, fun ka kb => rfl, ?_, ?_, ?_, ?_⟩
  · simp only [garble_step, hin0, hin1, hinner, if_pos hout]
    rfl
  · exact xor_labels_cancel _ _ (by rw [pad_sha_length, hk])
  · exact xor_labels_cancel _ _ (by rw [pad_sha_length, hk])
  · exact xor_labels_cancel _ _ (by rw [pad_sha_length, hk])
  · exact xor_labels_cancel _ _ (by rw [pad_sha_length, xor_labels_length, hk, hd]; rfl)

/-- Witness for C1 at a concrete state. -/
theorem C1_and_gate_table_witness :
    garble_step cdelta 0 (.And 0 1 2) sW =
      some ⟨sW.wires.set 2 (some ⟨cinner, xor_labels cinner cdelta⟩), [],
        sW.and_tables ++
          [⟨0, 0, 1, 2,
            [xor_labels (pad_sha cwA.k0 cwB.k0) cinner,
             xor_labels (pad_sha cwA.k0 cwB.k1) cinner,
             xor_labels (pad_sha cwA.k1 cwB.k0) cinner,
             xor_labels (pad_sha cwA.k1 cwB.k1) (xor_labels cinner cdelta)]⟩],
        sW.not_tables⟩ ∧
    (∀ ka kb : Label, pad_sha ka kb = (sha256_32 (ka ++ kb)).take 16) ∧
    xor_labels (pad_sha cwA.k0 cwB.k0) (xor_labels (pad_sha cwA.k0 cwB.k0) cinner) = cinner ∧
    xor_labels (pad_sha cwA.k0 cwB.k1) (xor_labels (pad_sha cwA.k0 cwB.k1) cinner) = cinner ∧
    xor_labels (pad_sha cwA.k1 cwB.k0) (xor_labels (pad_sha cwA.k1 cwB.k0) cinner) = cinner ∧
    xor_labels (pad_sha cwA.k1 cwB.k1)
        (xor_labels (pad_sha cwA.k1 cwB.k1) (xor_labels cinner cdelta)) =
      xor_labels cinner cdelta :=
  C1_and_gate_table cdelta 0 0 1 2 sW cwA cwB cinner []
    (by rfl) (by rfl) (by rfl) (by decide) (by rfl) (by rfl)

/-! ## C4 — XOR gates are free -/

/-- C4. Garbling an XOR gate with both operand slots populated
assigns `k0(out) = k0(in0) XOR k0(in1)` and `k1(out) = k0(out) XOR delta`
to the output wire, emits nothing into either table, and consumes no
inner label. -/
theorem C4_xor_gate_free (delta : Label) (idx in0 in1 outw : Nat) (s : GarbleState)
    (lu lv : WireLabels)
    (hin0 : s.wires[in0]? = some (some lu)) (hin1 : s.wires[in1]? = some (some lv))
    (hout : outw < s.wires.length) :
    garble_step delta idx (.Xor in0 in1 outw) s =
      some ⟨s.wires.set outw
          (some ⟨xor_labels lu.k0 lv.k0, xor_labels (xor_labels lu.k0 lv.k0) delta⟩),
        s.inner, s.and_tables, s.not_tables⟩ := by
  simp only [garble_step, hin0, hin1, if_pos hout]

/-- Witness for C4 at a concrete state. -/
theorem C4_xor_gate_free_witness :
    garble_step cdelta 0 (.Xor 0 1 2) sW =
      some ⟨sW.wires.set 2
          (some ⟨xor_labels cwA.k0 cwB.k0, xor_labels (xor_labels cwA.k0 cwB.k0) cdelta⟩),
        sW.inner, sW.and_tables, sW.not_tables⟩ :=
  C4_xor_gate_free cdelta 0 0 1 2 sW cwA cwB (by rfl) (by rfl) (by decide)

/-! ## C5 — NOT-gate table shape and correctness -/

/-- C5. Garbling a NOT gate consumes the next unused inner label as
`k0(out)` (with `k1(out) = k0(out) XOR delta`) and emits exactly 2
ciphertexts indexed by the input bit a, with entry a equal to
`pad_sha(k_a(input), k_a(input)) XOR k_{1-a}(out)` — the pad hashes the
same selected input label twice; equivalently entry a decrypts back to
`k_{1-a}(out)` under that pad. -/
theorem C5_not_gate_table (delta : Label) (idx inw outw : Nat) (s : GarbleState)
    (lu : WireLabels) (k0_out : Label) (rest : List Label)
    (hin : s.wires[inw]? = some (some lu))
    (hinner : s.inner = k0_out :: rest) (hout : outw < s.wires.length)
    (hk : k0_out.length = 16) (hd : delta.length = 16) :
    garble_step delta idx (.Not inw outw) s =
      some ⟨s.wires.set outw (some ⟨k0_out, xor_labels k0_out delta⟩), rest,
        s.and_tables,
        s.not_tables ++
          [⟨idx, inw, outw,
            [xor_labels (pad_sha lu.k0 lu.k0) (xor_labels k0_out delta),
             xor_labels (pad_sha lu.k1 lu.k1) k0_out]⟩]⟩ ∧
    xor_labels (pad_sha lu.k0 lu.k0)
        (xor_labels (pad_sha lu.k0 lu.k0) (xor_labels k0_out delta)) =
      xor_labels k0_out delta ∧
    xor_labels (pad_sha lu.k1 lu.k1) (xor_labels (pad_sha lu.k1 lu.k1) k0_out) = k0_out := by
  refine ⟨?_, ?_, ?_⟩
  · simp only [garble_step, hin, hinner, if_pos hout]
    rfl
  · exact xor_labels_cancel _ _ (by rw [pad_sha_length, xor_labels_length, hk, hd]; rfl)
  · exact xor_labels_cancel _ _ (by rw [pad_sha_length, hk])

/-- Witness for C5 at a concrete state. -/
theorem C5_not_gate_table_witness :
    garble_step cdelta 0 (.Not 0 2) sW =
      some ⟨sW.wires.set 2 (some ⟨cinner, xor_labels cinner cdelta⟩), [],
        sW.and_tables,
        sW.not_tables ++
          [⟨0, 0, 2,
            [xor_labels (pad_sha cwA.k0 cwA.k0) (xor_labels cinner cdelta),
             xor_labels (pad_sha cwA.k1 cwA.k1) cinner]⟩]⟩ ∧
    xor_labels (pad_sha cwA.k0 cwA.k0)
        (xor_labels (pad_sha cwA.k0 cwA.k0) (xor_labels cinner cdelta)) =
      xor_labels cinner cdelta ∧
    xor_labels (pad_sha cwA.k1 cwA.k1) (xor_labels (pad_sha cwA.k1 cwA.k1) cinner) = cinner :=
  C5_not_gate_table cdelta 0 0 2 sW cwA cinner []
    (by rfl) (by rfl) (by decide) (by rfl) (by rfl)

/-! ## Gate observations and step inversion -/

/-- The operand wires a gate reads. -/
def gateIns : GateDef → List Nat
  | .And a b _ => [a, b]
  | .Xor a b _ => [a, b]
  | .Not a _ => [a]

/-- The wire a gate writes. -/
def gateOut : GateDef → Nat
  | .And _ _ o => o
  | .Xor _ _ o => o
  | .Not _ o => o

/-- Whether the gate consumes an inner label (AND and NOT do, XOR does not). -/
def needsLabel : GateDef → Bool
  | .And _ _ _ => true
  | .Xor _ _ _ => false
  | .Not _ _ => true

/-- Number of AND gates in a gate sequence. -/
def nAnd (gs : List GateDef) : Nat :=
  (gs.filter fun g => match g with | .And _ _ _ => true | _ => false).length

/-- Number of NOT gates in a gate sequence. -/
def nNot (gs : List GateDef) : Nat :=
  (gs.filter fun g => match g with | .Not _ _ => true | _ => false).length

/-- Inversion of a successful XOR step. -/
theorem step_Xor_inv (delta : Label) (idx in0 in1 outw : Nat) (s s' : GarbleState)
    (h : garble_step delta idx (.Xor in0 in1 outw) s = some s') :
    ∃ lu lv, s.wires[in0]? = some (some lu) ∧ s.wires[in1]? = some (some lv) ∧
      outw < s.wires.length ∧
      s'.wires = s.wires.set outw
        (some ⟨xor_labels lu.k0 lv.k0, xor_labels (xor_labels lu.k0 lv.k0) delta⟩) ∧
      s'.inner = s.inner ∧ s'.and_tables = s.and_tables ∧ s'.not_tables = s.not_tables := by
  simp only [garble_step] at h
  split at h
  · rename_i lu lv h0 h1
    split at h
    · rename_i hl
      cases h
      exact ⟨lu, lv, h0, h1, hl, rfl, rfl, rfl, rfl⟩
    · simp at h
  · simp at h

/-- Inversion of a successful AND step. -/
theorem step_And_inv (delta : Label) (idx in0 in1 outw : Nat) (s s' : GarbleState)
    (h : garble_step delta idx (.And in0 in1 outw) s = some s') :
    ∃ lu lv k0_out, s.wires[in0]? = some (some lu) ∧ s.wires[in1]? = some (some lv) ∧
      s.inner = k0_out :: s'.inner ∧ outw < s.wires.length ∧
      s'.wires = s.wires.set outw (some ⟨k0_out, xor_labels k0_out delta⟩) ∧
      s'.and_tables = s.and_tables ++
        [⟨idx, in0, in1, outw,
          [xor_labels (pad_sha lu.k0 lv.k0) k0_out,
           xor_labels (pad_sha lu.k0 lv.k1) k0_out,
           xor_labels (pad_sha lu.k1 lv.k0) k0_out,
           xor_labels (pad_sha lu.k1 lv.k1) (xor_labels k0_out delta)]⟩] ∧
      s'.not_tables = s.not_tables := by
  simp only [garble_step] at h
  split at h
  · rename_i lu lv h0 h1
    split at h
    · simp at h
    · rename_i k0 restl hi
      split at h
      · rename_i hl
        cases h
        exact ⟨lu, lv, k0, h0, h1, hi, hl, rfl, rfl, rfl⟩
      · simp at h
  · simp at h

/-- Inversion of a successful NOT step. -/
theorem step_Not_inv (delta : Label) (idx inw outw : Nat) (s s' : GarbleState)
    (h : garble_step delta idx (.Not inw outw) s = some s') :
    ∃ lu k0_out, s.wires[inw]? = some (some lu) ∧
      s.inner = k0_out :: s'.inner ∧ outw < s.wires.length ∧
      s'.wires = s.wires.set outw (some ⟨k0_out, xor_labels k0_out delta⟩) ∧
      s'.and_tables = s.and_tables ∧
      s'.not_tables = s.not_tables ++
        [⟨idx, inw, outw,
          [xor_labels (pad_sha lu.k0 lu.k0) (xor_labels k0_out delta),
           xor_labels (pad_sha lu.k1 lu.k1) k0_out]⟩] := by
  simp only [garble_step] at h
  split at h
  · rename_i lu h0
    split at h
    · simp at h
    · rename_i k0 restl hi
      split at h
      · rename_i hl
        cases h
        exact ⟨lu, k0, h0, hi, hl, rfl, rfl, rfl⟩
      · simp at h
  · simp at h

/-- Every successful step writes exactly one slot, and writes it with a
pair satisfying `k1 = k0 XOR delta`. -/
theorem garble_step_sets (delta : Label) (idx : Nat) (g : GateDef) (s s' : GarbleState)
    (h : garble_step delta idx g s = some s') :
    ∃ outw k, s'.wires = s.wires.set outw (some ⟨k, xor_labels k delta⟩) := by
  cases g with
  | Xor in0 in1 outw =>
    obtain ⟨lu, lv, -, -, -, hw, -, -, -⟩ := step_Xor_inv delta idx in0 in1 outw s s' h
    exact ⟨outw, _, hw⟩
  | And in0 in1 outw =>
    obtain ⟨lu, lv, k0, -, -, -, -, hw, -, -⟩ := step_And_inv delta idx in0 in1 outw s s' h
    exact ⟨outw, k0, hw⟩
  | Not inw outw =>
    obtain ⟨lu, k0, -, -, -, hw, -, -⟩ := step_Not_inv delta idx inw outw s s' h
    exact ⟨outw, k0, hw⟩

/-! ## C2 — the Free-XOR invariant `k1 = k0 XOR delta` -/

/-- The per-slot invariant: an empty slot, or a pair with `k1 = k0 XOR delta`. -/
def slotInv (delta : Label) : Option WireLabels → Prop
  | none => True
  | some wl => wl.k1 = xor_labels wl.k0 delta

instance (delta : Label) (o : Option WireLabels) : Decidable (slotInv delta o) :=
  match o with
  | none => isTrue trivial
  | some wl => inferInstanceAs (Decidable (wl.k1 = xor_labels wl.k0 delta))

/-- Every populated slot of the wire arena satisfies the Free-XOR invariant. -/
def WireInv (delta : Label) (ws : List (Option WireLabels)) : Prop :=
  ∀ o ∈ ws, slotInv delta o

instance (delta : Label) (ws : List (Option WireLabels)) : Decidable (WireInv delta ws) :=
  List.decidableBAll _ ws

/-- The invariant holds at initialization: input slots get `k1 = k0 XOR delta`,
the rest are empty. -/
theorem initWires_inv (wcnt in12 : Nat) (ils : List Label) (delta : Label) :
    WireInv delta (initWires wcnt in12 ils delta) := by
  intro o ho
  rcases List.mem_append.1 ho with h | h
  · rcases List.mem_map.1 h with ⟨k0, -, rfl⟩
    rfl
  · rw [List.eq_of_mem_replicate h]
    trivial

/-- One garbling step preserves the Free-XOR invariant. -/
theorem garble_step_inv (delta : Label) (idx : Nat) (g : GateDef) (s s' : GarbleState)
    (hs : WireInv delta s.wires) (h : garble_step delta idx g s = some s') :
    WireInv delta s'.wires := by
  obtain ⟨outw, k, hw⟩ := garble_step_sets delta idx g s s' h
  rw [hw]
  intro o ho
  rcases List.mem_or_eq_of_mem_set ho with h' | rfl
  · exact hs o h'
  · rfl

/-- The gate loop preserves the Free-XOR invariant. -/
theorem garble_gates_inv (delta : Label) :
    ∀ (gs : List GateDef) (idx : Nat) (s s' : GarbleState),
      WireInv delta s.wires → garble_gates delta idx gs s = some s' →
      WireInv delta s'.wires := by
  intro gs
  induction gs with
  | nil =>
    intro idx s s' hs h
    cases h
    exact hs
  | cons g rest ih =>
    intro idx s s' hs h
    simp only [garble_gates] at h
    split at h
    · rename_i s1 h1
      exact ih (idx + 1) s1 s' (garble_step_inv delta idx g s s1 hs h1) h
    · simp at h

/-- C2. Throughout a run of `garble_ckt` — i.e. after the
initialization of the input-wire slots and after the processing of every
(prefix of the) gate sequence — every populated slot `w` of the
wire-label table satisfies `k1(w) = k0(w) XOR delta`. -/
theorem C2_free_xor_invariant (delta : Label) (wcnt in12 : Nat)
    (ils inner : List Label) (gs : List GateDef) (idx : Nat) (s' : GarbleState)
    (h : garble_gates delta idx gs ⟨initWires wcnt in12 ils delta, inner, [], []⟩ = some s') :
    WireInv delta s'.wires :=
  garble_gates_inv delta gs idx _ s' (initWires_inv wcnt in12 ils delta) h

/-- Witness for C2: a concrete completed run (one AND gate over two
input wires) whose final wire table satisfies the invariant. -/
theorem C2_free_xor_invariant_witness :
    WireInv cdelta
      ((garble_gates cdelta 0 [.And 0 1 2]
          ⟨initWires 3 2 [List.replicate 16 2, List.replicate 16 3] cdelta,
            [cinner], [], []⟩).getD ⟨[], [], [], []⟩).wires :=
  C2_free_xor_invariant cdelta 3 2 [List.replicate 16 2, List.replicate 16 3]
    [cinner] [.And 0 1 2] 0 _ (by rfl)

/-! ## C3 — conservation of tables and inner labels

`garble_ckt` emits one AND table per `GateDef.And` and one NOT table per
`GateDef.Not` in the gate *sequence*; the header counts
(`and_gate_count`, `not_gate_count`) are never consulted, and surplus
inner labels are silently left unconsumed, so the claim as stated fails
on a `CircuitInput` whose header disagrees with its gate list or on an
oversupplied `inner_labels`. -/

/-- The table/label accounting of a completed gate loop. -/
theorem garble_gates_conservation (delta : Label) :
    ∀ (gs : List GateDef) (idx : Nat) (s s' : GarbleState),
      garble_gates delta idx gs s = some s' →
      s'.and_tables.length = s.and_tables.length + nAnd gs ∧
      s'.not_tables.length = s.not_tables.length + nNot gs ∧
      s'.inner = s.inner.drop (nAnd gs + nNot gs) ∧
      nAnd gs + nNot gs ≤ s.inner.length := by
  intro gs
  induction gs with
  | nil =>
    intro idx s s' h
    cases h
    simp [nAnd, nNot]
  | cons g rest ih =>
    intro idx s s' h
    simp only [garble_gates] at h
    split at h
    · rename_i s1 h1
      obtain ⟨ha, hn, hd, hle⟩ := ih (idx + 1) s1 s' h
      cases g with
      | Xor a b o =>
        obtain ⟨lu, lv, -, -, -, -, hi, hat, hnt⟩ := step_Xor_inv delta idx a b o s s1 h1
        refine ⟨?_, ?_, ?_, ?_⟩ <;>
          simp [nAnd, nNot, List.filter_cons, ha, hn, hd, hat, hnt, hi] at *
        · omega
      | And a b o =>
        obtain ⟨lu, lv, k0, -, -, hi, -, -, hat, hnt⟩ := step_And_inv delta idx a b o s s1 h1
        have h1l : s.inner.length = s1.inner.length + 1 := by rw [hi]; rfl
        refine ⟨?_, ?_, ?_, ?_⟩
        · simp [nAnd, List.filter_cons, ha, hat]; omega
        · simpa [nNot, List.filter_cons, hnt] using hn
        · have : nAnd (GateDef.And a b o :: rest) + nNot (GateDef.And a b o :: rest) =
              (nAnd rest + nNot rest) + 1 := by
            simp [nAnd, nNot, List.filter_cons]; omega
          rw [this, hi, List.drop_succ_cons, hd]
        · have : nAnd (GateDef.And a b o :: rest) + nNot (GateDef.And a b o :: rest) =
              (nAnd rest + nNot rest) + 1 := by
            simp [nAnd, nNot, List.filter_cons]; omega
          omega
      | Not a o =>
        obtain ⟨lu, k0, -, hi, -, -, hat, hnt⟩ := step_Not_inv delta idx a o s s1 h1
        have h1l : s.inner.length = s1.inner.length + 1 := by rw [hi]; rfl
        refine ⟨?_, ?_, ?_, ?_⟩
        · simpa [nAnd, List.filter_cons, hat] using ha
        · simp [nNot, List.filter_cons, hn, hnt]; omega
        · have : nAnd (GateDef.Not a o :: rest) + nNot (GateDef.Not a o :: rest) =
              (nAnd rest + nNot rest) + 1 := by
            simp [nAnd, nNot, List.filter_cons]; omega
          rw [this, hi, List.drop_succ_cons, hd]
        · have : nAnd (GateDef.Not a o :: rest) + nNot (GateDef.Not a o :: rest) =
              (nAnd rest + nNot rest) + 1 := by
            simp [nAnd, nNot, List.filter_cons]; omega
          omega
    · simp at h

/-- A `CircuitInput` whose header claims one AND gate but whose gate
list is empty — `parse_bristol` never checks the two against each other. -/
def cktHdrLies : CircuitInput := ⟨0, 1, 0, 0, 2, 1, 1, 1, []⟩

/-- Labels for `cktHdrLies` with one (surplus) inner label. -/
def liHdrLies : LabelInputs :=
  ⟨cdelta, [List.replicate 16 2, List.replicate 16 3], [cinner]⟩

/-- C3, counterexample. A run of `garble_ckt` that completes with
zero AND tables although `and_gate_count = 1`, and with its one inner
label left unconsumed: the emitted tables track the gate sequence, not
the header counts, and a surplus label supply is not an error. -/
theorem C3_conservation_counterexample :
    garble_ckt cktHdrLies liHdrLies = some ⟨[], []⟩ ∧
    (GarbledOutput.mk [] []).and_tables.length ≠ cktHdrLies.and_gate_count ∧
    ((garble_gates liHdrLies.delta 0 cktHdrLies.gates
        ⟨initWires cktHdrLies.total_wire_count
            (cktHdrLies.input1_count + cktHdrLies.input2_count)
            liHdrLies.input_labels liHdrLies.delta,
          liHdrLies.inner_labels, [], []⟩).getD ⟨[], [], [], []⟩).inner = [cinner] := by
  refine ⟨by rfl, by decide, by rfl⟩

/-- C3, amended. For every run of `garble_ckt` that completes,
`len(and_tables)` equals the number of `And` gates in the gate sequence
and `len(not_tables)` the number of `Not` gates (the header counts are
not consulted); exactly that many inner labels are consumed from the
front of the supply — none may be missing, but surplus labels are
silently left over. -/
theorem C3_conservation_amended (ckt : CircuitInput) (li : LabelInputs) (o : GarbledOutput)
    (h : garble_ckt ckt li = some o) :
    o.and_tables.length = nAnd ckt.gates ∧
    o.not_tables.length = nNot ckt.gates ∧
    nAnd ckt.gates + nNot ckt.gates ≤ li.inner_labels.length ∧
    (garble_gates li.delta 0 ckt.gates
        ⟨initWires ckt.total_wire_count (ckt.input1_count + ckt.input2_count)
            li.input_labels li.delta, li.inner_labels, [], []⟩).map (fun s => s.inner) =
      some (li.inner_labels.drop (nAnd ckt.gates + nNot ckt.gates)) := by
  simp only [garble_ckt] at h
  split at h
  · rename_i s hs
    cases h
    obtain ⟨ha, hn, hd, hle⟩ := garble_gates_conservation li.delta ckt.gates 0 _ s hs
    refine ⟨by simpa using ha, by simpa using hn, by simpa using hle, ?_⟩
    rw [hs]
    simpa using hd
  · simp at h

/-- The one-AND-gate circuit of spec Scenario A. -/
def cktW : CircuitInput := ⟨1, 1, 0, 0, 3, 1, 1, 1, [.And 0 1 2]⟩

/-- Concrete labels for `cktW`: one inner label for its one AND gate. -/
def liW : LabelInputs := ⟨cdelta, [List.replicate 16 2, List.replicate 16 3], [cinner]⟩

/-- Witness for the amended C3 on a concrete completing run. -/
theorem C3_conservation_amended_witness :
    ((garble_ckt cktW liW).getD ⟨[], []⟩).and_tables.length = nAnd cktW.gates ∧
    ((garble_ckt cktW liW).getD ⟨[], []⟩).not_tables.length = nNot cktW.gates ∧
    nAnd cktW.gates + nNot cktW.gates ≤ liW.inner_labels.length ∧
    (garble_gates liW.delta 0 cktW.gates
        ⟨initWires cktW.total_wire_count (cktW.input1_count + cktW.input2_count)
            liW.input_labels liW.delta, liW.inner_labels, [], []⟩).map (fun s => s.inner) =
      some (liW.inner_labels.drop (nAnd cktW.gates + nNot cktW.gates)) :=
  C3_conservation_amended cktW liW ((garble_ckt cktW liW).getD ⟨[], []⟩) (by rfl)

/-! ## C10 — no panic under the documented preconditions -/

/-- Setting a slot preserves populated slots. -/
theorem populated_set (ws : List (Option WireLabels)) (o : Nat) (v : WireLabels)
    (j : Nat) (hj : ∃ wl, ws[j]? = some (some wl)) :
    ∃ wl, (ws.set o (some v))[j]? = some (some wl) := by
  rcases hj with ⟨wl, hwl⟩
  by_cases h : o = j
  · subst h
    have hlt : o < ws.length := by
      by_contra hc
      rw [List.getElem?_eq_none (Nat.le_of_not_lt hc)] at hwl
      cases hwl
    exact ⟨v, List.getElem?_set_self hlt⟩
  · exact ⟨wl, by rw [List.getElem?_set_ne h]; exact hwl⟩

/-- Forward progress of one step: populated operands, an in-bounds output
wire and an available inner label (when one is needed) rule out every
panic branch; the step succeeds, keeps the arena length, preserves
populated slots, populates the output wire and consumes exactly one
label for AND/NOT and none for XOR. -/
theorem garble_step_progress (delta : Label) (idx : Nat) (g : GateDef) (s : GarbleState)
    (hins : ∀ j ∈ gateIns g, ∃ wl, s.wires[j]? = some (some wl))
    (hout : gateOut g < s.wires.length)
    (hlab : needsLabel g = true → s.inner ≠ []) :
    ∃ s' : GarbleState, garble_step delta idx g s = some s' ∧
      s'.wires.length = s.wires.length ∧
      (∀ j : Nat, (∃ wl, s.wires[j]? = some (some wl)) →
        ∃ wl', s'.wires[j]? = some (some wl')) ∧
      (∃ wl, s'.wires[gateOut g]? = some (some wl)) ∧
      s'.inner.length + (if needsLabel g then 1 else 0) = s.inner.length := by
  cases g with
  | Xor a b o =>
    obtain ⟨lu, h0⟩ := hins a (by simp [gateIns])
    obtain ⟨lv, h1⟩ := hins b (by simp [gateIns])
    have hol : o < s.wires.length := hout
    refine ⟨_, by simp only [garble_step, h0, h1, if_pos hol]; rfl, ?_, ?_, ?_, ?_⟩
    · exact List.length_set ..
    · intro j hj
      exact populated_set s.wires o _ j hj
    · exact ⟨_, List.getElem?_set_self (by simpa [gateOut] using hol)⟩
    · simp [needsLabel]
  | And a b o =>
    obtain ⟨lu, h0⟩ := hins a (by simp [gateIns])
    obtain ⟨lv, h1⟩ := hins b (by simp [gateIns])
    have hol : o < s.wires.length := hout
    rcases hi : s.inner with _ | ⟨k0, restl⟩
    · exact absurd hi (hlab rfl)
    refine ⟨_, by simp only [garble_step, h0, h1, hi, if_pos hol]; rfl, ?_, ?_, ?_, ?_⟩
    · exact List.length_set ..
    · intro j hj
      exact populated_set s.wires o _ j hj
    · exact ⟨_, List.getElem?_set_self (by simpa [gateOut] using hol)⟩
    · simp [needsLabel, hi]
  | Not a o =>
    obtain ⟨lu, h0⟩ := hins a (by simp [gateIns])
    have hol : o < s.wires.length := hout
    rcases hi : s.inner with _ | ⟨k0, restl⟩
    · exact absurd hi (hlab rfl)
    refine ⟨_, by simp only [garble_step, h0, hi, if_pos hol]; rfl, ?_, ?_, ?_, ?_⟩
    · exact List.length_set ..
    · intro j hj
      exact populated_set s.wires o _ j hj
    · exact ⟨_, List.getElem?_set_self (by simpa [gateOut] using hol)⟩
    · simp [needsLabel, hi]

/-- Totality of the gate loop under the readiness preconditions. -/
theorem garble_gates_total (delta : Label) :
    ∀ (gs : List GateDef) (idx : Nat) (s : GarbleState),
      (∀ g ∈ gs, gateOut g < s.wires.length) →
      (∀ k, k < gs.length → ∀ j ∈ gateIns (gs.getD k (.Xor 0 0 0)),
        (∃ wl, s.wires[j]? = some (some wl)) ∨
        ∃ m, m < k ∧ gateOut (gs.getD m (.Xor 0 0 0)) = j) →
      nAnd gs + nNot gs ≤ s.inner.length →
      ∃ s', garble_gates delta idx gs s = some s' := by
  intro gs
  induction gs with
  | nil =>
    intro idx s _ _ _
    exact ⟨s, rfl⟩
  | cons g rest ih =>
    intro idx s hout hready hlab
    have hins : ∀ j ∈ gateIns g, ∃ wl, s.wires[j]? = some (some wl) := by
      intro j hj
      rcases hready 0 (by simp) j (by simpa using hj) with h | ⟨m, hm, -⟩
      · exact h
      · omega
    have hlab1 : needsLabel g = true → s.inner ≠ [] := by
      intro hg
      have h1 : 1 ≤ s.inner.length := by
        cases g with
        | And a b o =>
          have : nAnd (GateDef.And a b o :: rest) = nAnd rest + 1 := by
            simp [nAnd, List.filter_cons]
          omega
        | Not a o =>
          have : nNot (GateDef.Not a o :: rest) = nNot rest + 1 := by
            simp [nNot, List.filter_cons]
          omega
        | Xor a b o => simp [needsLabel] at hg
      intro hnil
      rw [hnil] at h1
      simp at h1
    obtain ⟨s1, hstep, hlen, hpres, hpop, hinn⟩ :=
      garble_step_progress delta idx g s hins (hout g (by simp)) hlab1
    obtain ⟨s', hs'⟩ := ih (idx + 1) s1
      (fun g' hg' => hlen ▸ hout g' (List.mem_cons_of_mem g hg'))
      (by
        intro k hk j hj
        rcases hready (k + 1) (by simpa using hk) j (by simpa using hj) with h | ⟨m, hm, hme⟩
        · exact Or.inl (hpres j h)
        · cases m with
          | zero => exact Or.inl (by simpa [gateOut] using hme ▸ hpop)
          | succ m' => exact Or.inr ⟨m', by omega, by simpa using hme⟩)
      (by
        cases g with
        | And a b o =>
          have ha : nAnd (GateDef.And a b o :: rest) = nAnd rest + 1 := by
            simp [nAnd, List.filter_cons]
          have hn : nNot (GateDef.And a b o :: rest) = nNot rest := by
            simp [nNot, List.filter_cons]
          simp only [needsLabel, if_true] at hinn
          omega
        | Not a o =>
          have ha : nAnd (GateDef.Not a o :: rest) = nAnd rest := by
            simp [nAnd, List.filter_cons]
          have hn : nNot (GateDef.Not a o :: rest) = nNot rest + 1 := by
            simp [nNot, List.filter_cons]
          simp only [needsLabel, if_true] at hinn
          omega
        | Xor a b o =>
          have ha : nAnd (GateDef.Xor a b o :: rest) = nAnd rest := by
            simp [nAnd, List.filter_cons]
          have hn : nNot (GateDef.Xor a b o :: rest) = nNot rest := by
            simp [nNot, List.filter_cons]
          simp only [needsLabel, if_false, Bool.false_eq_true] at hinn
          omega)
    exact ⟨s', by simp only [garble_gates, hstep]; exact hs'⟩

/-- C10. Under the documented preconditions — every wire index a gate
references is below `total_wire_count`, `input_labels` has exactly
`input1_count + input2_count` entries, `inner_labels` has at least one
entry per AND/NOT gate of the sequence, and every operand wire is a
primary input or the output of an earlier gate — `garble_ckt` reaches no
panic branch and returns a `GarbledOutput`. -/
theorem C10_garble_ckt_total (ckt : CircuitInput) (li : LabelInputs)
    (h1 : ∀ g ∈ ckt.gates, gateOut g < ckt.total_wire_count ∧
          ∀ j ∈ gateIns g, j < ckt.total_wire_count)
    (h2 : li.input_labels.length = ckt.input1_count + ckt.input2_count)
    (h3 : nAnd ckt.gates + nNot ckt.gates ≤ li.inner_labels.length)
    (h4 : ∀ k, k < ckt.gates.length → ∀ j ∈ gateIns (ckt.gates.getD k (.Xor 0 0 0)),
          j < ckt.input1_count + ckt.input2_count ∨
          ∃ m, m < k ∧ gateOut (ckt.gates.getD m (.Xor 0 0 0)) = j) :
    (garble_ckt ckt li).isSome = true := by
  have hwlen : (initWires ckt.total_wire_count (ckt.input1_count + ckt.input2_count)
      li.input_labels li.delta).length =
      (ckt.input1_count + ckt.input2_count) +
        (ckt.total_wire_count - (ckt.input1_count + ckt.input2_count)) := by
    simp [initWires, h2]
  have hwge : ckt.total_wire_count ≤ (initWires ckt.total_wire_count
      (ckt.input1_count + ckt.input2_count) li.input_labels li.delta).length := by
    rw [hwlen]; omega
  have hpopin : ∀ j, j < ckt.input1_count + ckt.input2_count →
      ∃ wl, (initWires ckt.total_wire_count (ckt.input1_count + ckt.input2_count)
        li.input_labels li.delta)[j]? = some (some wl) := by
    intro j hj
    have hjl : j < li.input_labels.length := by omega
    refine ⟨⟨li.input_labels[j], xor_labels li.input_labels[j] li.delta⟩, ?_⟩
    rw [initWires, List.getElem?_append_left (by simpa using hjl), List.getElem?_map,
      List.getElem?_eq_getElem hjl]
    rfl
  obtain ⟨s', hs'⟩ := garble_gates_total li.delta ckt.gates 0
    ⟨initWires ckt.total_wire_count (ckt.input1_count + ckt.input2_count)
        li.input_labels li.delta, li.inner_labels, [], []⟩
    (fun g hg => Nat.lt_of_lt_of_le (h1 g hg).1 hwge)
    (by
      intro k hk j hj
      rcases h4 k hk j hj with h | h
      · exact Or.inl (hpopin j h)
      · exact Or.inr h)
    h3
  simp only [garble_ckt, hs']
  rfl

/-- Witness for C10: the preconditions hold for the concrete
one-AND-gate circuit and garbling completes on it. -/
theorem C10_garble_ckt_total_witness :
    ((∀ g ∈ cktW.gates, gateOut g < cktW.total_wire_count ∧
        ∀ j ∈ gateIns g, j < cktW.total_wire_count) ∧
      liW.input_labels.length = cktW.input1_count + cktW.input2_count ∧
      nAnd cktW.gates + nNot cktW.gates ≤ liW.inner_labels.length ∧
      (∀ k, k < cktW.gates.length → ∀ j ∈ gateIns (cktW.gates.getD k (.Xor 0 0 0)),
        j < cktW.input1_count + cktW.input2_count ∨
        ∃ m, m < k ∧ gateOut (cktW.gates.getD m (.Xor 0 0 0)) = j)) ∧
    (garble_ckt cktW liW).isSome = true :=
  ⟨⟨by decide, by decide, by decide, by decide⟩,
    C10_garble_ckt_total cktW liW (by decide) (by decide) (by decide) (by decide)⟩

/-! ## C6 — unrecognized opcode tokens

The `bail!` naming the token is only reached after the operand and
output tokens have been consumed: the operand `unwrap`s panic first on a
line like `FOO x 1`, so the claim holds only for lines whose operand and
output tokens parse as integers. -/

/-- Whether the loader returned a structured error (as opposed to
panicking or succeeding). -/
def isStructuredErr (r : Option (Except ParseErr CircuitInput)) : Bool :=
  match r with
  | some (.error _) => true
  | _ => false

/-- C6, counterexample. The gate line `FOO x 1` has an unrecognized
opcode token `FOO`, yet the loader panics on the unparsable operand
token `x` (the operand `unwrap` runs before the opcode `match`) instead
of failing with a structured error. -/
theorem C6_unknown_opcode_counterexample :
    parse_bristol ["1 1 0 0", "3 1 1 1", "FOO x 1"] = none ∧
    isStructuredErr (parse_bristol ["1 1 0 0", "3 1 1 1", "FOO x 1"]) = false :=
  ⟨rfl, rfl⟩

/-- A gate line with an unrecognized opcode whose operand and output
tokens parse reaches the `bail!` naming the token. -/
theorem parse_gate_line_unknown (tok : String) (rest : List String)
    (vs : List Nat) (r2 : List String) (otok : String) (r3 : List String) (o : Nat)
    (hnA : tok ≠ "AND") (hnX : tok ≠ "XOR") (hnI : tok ≠ "INV")
    (hc : collectInputs 1 rest = some (vs, r2))
    (hr2 : r2 = otok :: r3) (ho : parse_usize otok = .ok o) :
    parse_gate_line (tok :: rest) = some (.error (.unexpectedGate tok)) := by
  have harity : (if tok = "AND" ∨ tok = "XOR" then 2 else 1) = 1 := by
    rw [if_neg]
    rintro (h | h)
    · exact hnA h
    · exact hnX h
  simp only [parse_gate_line, harity, hc, hr2, ho, if_neg hnA, if_neg hnX, if_neg hnI]

/-- If the first `j` gate lines parse and line `i + j` yields an error,
the gate loop stops with that error. -/
theorem parse_gates_err (lines : List String) (e : ParseErr) :
    ∀ (j n i : Nat), j < n →
      (∀ m, m < j → ∃ g, parse_gate_line (tokensOf (lineAt lines (i + m))) = some (.ok g)) →
      parse_gate_line (tokensOf (lineAt lines (i + j))) = some (.error e) →
      parse_gates lines i n = some (.error e) := by
  intro j
  induction j with
  | zero =>
    intro n i hn hok herr
    cases n with
    | zero => omega
    | succ n' =>
      rw [show i + 0 = i from rfl] at herr
      simp only [parse_gates, herr, pstep]
  | succ j' ih =>
    intro n i hn hok herr
    cases n with
    | zero => omega
    | succ n' =>
      obtain ⟨g, hg⟩ := hok 0 (by omega)
      rw [show i + 0 = i from rfl] at hg
      have htail := ih n' (i + 1) (by omega)
        (fun m hm => by
          have h2 := hok (m + 1) (by omega)
          rwa [show i + (m + 1) = i + 1 + m by omega] at h2)
        (by rwa [show i + (j' + 1) = i + 1 + j' by omega] at herr)
      simp only [parse_gates, hg, pstep, htail]

/-- C6, amended. For every gate line whose opcode token is not AND,
XOR or INV but whose operand and output tokens do parse as integers —
and which the loader reaches: the header parsed and every earlier gate
line parsed — loading fails with the structured error naming the
offending token, and no `CircuitInput` is returned; if an operand or
output token of such a line is missing or unparsable, the loader panics
before inspecting the opcode. -/
theorem C6_unknown_opcode_amended (lines : List String)
    (g4 w4 : Nat × Nat × Nat × Nat)
    (hh0 : parse_header4 (tokensOf (lineAt lines 0)) = some (.ok g4))
    (hh1 : parse_header4 (tokensOf (lineAt lines 1)) = some (.ok w4))
    (j : Nat) (hj : j < g4.1)
    (hearlier : ∀ m, m < j →
      ∃ g, parse_gate_line (tokensOf (lineAt lines (2 + m))) = some (.ok g))
    (tok : String) (rest : List String)
    (htok : tokensOf (lineAt lines (2 + j)) = tok :: rest)
    (hnA : tok ≠ "AND") (hnX : tok ≠ "XOR") (hnI : tok ≠ "INV")
    (vs : List Nat) (r2 : List String) (otok : String) (r3 : List String) (o : Nat)
    (hc : collectInputs 1 rest = some (vs, r2))
    (hr2 : r2 = otok :: r3) (ho : parse_usize otok = .ok o) :
    parse_bristol lines = some (.error (.unexpectedGate tok)) := by
  have hline : parse_gate_line (tokensOf (lineAt lines (2 + j))) =
      some (.error (.unexpectedGate tok)) := by
    rw [htok]
    exact parse_gate_line_unknown tok rest vs r2 otok r3 o hnA hnX hnI hc hr2 ho
  have hgates := parse_gates_err lines (.unexpectedGate tok) j g4.1 2 hj hearlier hline
  simp only [parse_bristol, hh0, hh1, liftIntErr, pstep, hgates]

/-- Witness for the amended C6: spec Scenario C, the line `FOO 0 1 2`. -/
theorem C6_unknown_opcode_amended_witness :
    parse_bristol ["1 1 0 0", "3 1 1 1", "FOO 0 1 2"] =
      some (.error (.unexpectedGate "FOO")) :=
  C6_unknown_opcode_amended ["1 1 0 0", "3 1 1 1", "FOO 0 1 2"]
    (1, 1, 0, 0) (3, 1, 1, 1) (by rfl) (by rfl) 0 (by decide)
    (fun m hm => absurd hm (by omega))
    "FOO" ["0", "1", "2"] (by rfl) (by decide) (by decide) (by decide)
    [0] ["1", "2"] "1" ["2"] 1 (by rfl) (by rfl) (by rfl)

/-! ## C7 — header-field errors

An unparsable header field propagates the `ParseIntError` through `?`
(a structured error carrying only the failure kind, not the offending
token or line); a *missing* header field makes `parts.next().unwrap()`
panic instead. -/

/-- C7, counterexample. The file whose header line is `"3"` is
missing header fields, and the loader panics (`unwrap` of `None`) rather
than surfacing a structured error; moreover the structured error emitted
for an unparsable field does not identify the offending token: two files
differing only in the bad token produce identical errors. -/
theorem C7_header_error_counterexample :
    parse_bristol ["3"] = none ∧
    isStructuredErr (parse_bristol ["3"]) = false ∧
    parse_bristol ["x 1 0 0", "2 1 0 1"] = parse_bristol ["y 1 0 0", "2 1 0 1"] ∧
    parse_bristol ["x 1 0 0", "2 1 0 1"] = some (.error (.intErr .invalidDigit)) :=
  ⟨rfl, rfl, rfl, rfl⟩

/-- A four-token header either parses completely or stops at the first
`ParseIntError`. -/
theorem parse_header4_cases (a0 a1 a2 a3 : String) (r : List String) :
    ((parse_usize a0).isOk = true ∧ (parse_usize a1).isOk = true ∧
     (parse_usize a2).isOk = true ∧ (parse_usize a3).isOk = true ∧
     ∃ q, parse_header4 (a0 :: a1 :: a2 :: a3 :: r) = some (.ok q)) ∨
    (∃ k, parse_header4 (a0 :: a1 :: a2 :: a3 :: r) = some (.error k)) := by
  rcases h0 : parse_usize a0 with e | v0
  · exact Or.inr ⟨e, by simp [parse_header4, headerField, pstep, h0]⟩
  rcases h1 : parse_usize a1 with e | v1
  · exact Or.inr ⟨e, by simp [parse_header4, headerField, pstep, h0, h1]⟩
  rcases h2 : parse_usize a2 with e | v2
  · exact Or.inr ⟨e, by simp [parse_header4, headerField, pstep, h0, h1, h2]⟩
  rcases h3 : parse_usize a3 with e | v3
  · exact Or.inr ⟨e, by simp [parse_header4, headerField, pstep, h0, h1, h2, h3]⟩
  exact Or.inl ⟨rfl, rfl, rfl, rfl,
    ⟨(v0, v1, v2, v3), by simp [parse_header4, headerField, pstep, h0, h1, h2, h3]⟩⟩

/-- C7, amended. If both header lines supply at least their four
fields (so no `unwrap` panics there) and at least one of the eight
fields fails to parse as an integer, the loader aborts with the
structured `ParseIntError` — which records the failure kind but not the
offending token or line — and returns no `CircuitInput`; a header line
with fewer than four tokens panics instead of erroring. -/
theorem C7_header_error_amended (lines : List String)
    (a0 a1 a2 a3 : String) (r0 : List String)
    (h0 : tokensOf (lineAt lines 0) = a0 :: a1 :: a2 :: a3 :: r0)
    (b0 b1 b2 b3 : String) (r1 : List String)
    (h1 : tokensOf (lineAt lines 1) = b0 :: b1 :: b2 :: b3 :: r1)
    (hbad : ¬((parse_usize a0).isOk = true ∧ (parse_usize a1).isOk = true ∧
      (parse_usize a2).isOk = true ∧ (parse_usize a3).isOk = true ∧
      (parse_usize b0).isOk = true ∧ (parse_usize b1).isOk = true ∧
      (parse_usize b2).isOk = true ∧ (parse_usize b3).isOk = true)) :
    ∃ k, parse_bristol lines = some (.error (.intErr k)) := by
  rcases parse_header4_cases a0 a1 a2 a3 r0 with ⟨ha0, ha1, ha2, ha3, q, hq⟩ | ⟨k, hk⟩
  · rcases parse_header4_cases b0 b1 b2 b3 r1 with ⟨hb0, hb1, hb2, hb3, p, hp⟩ | ⟨k, hk⟩
    · exact absurd ⟨ha0, ha1, ha2, ha3, hb0, hb1, hb2, hb3⟩ hbad
    · refine ⟨k, ?_⟩
      rw [← h1] at hk
      rw [← h0] at hq
      simp only [parse_bristol, hq, hk, liftIntErr, pstep]
  · refine ⟨k, ?_⟩
    rw [← h0] at hk
    simp only [parse_bristol, hk, liftIntErr, pstep]

/-- Witness for the amended C7: a header with an unparsable second field. -/
theorem C7_header_error_amended_witness :
    isStructuredErr (parse_bristol ["1 x 0 0", "2 1 0 1"]) = true := by
  obtain ⟨k, hk⟩ := C7_header_error_amended ["1 x 0 0", "2 1 0 1"]
    "1" "x" "0" "0" [] (by rfl) "2" "1" "0" "1" [] (by rfl) (by decide)
  rw [hk]
  rfl

/-! ## C8 — the label generator's draw order -/

/-- The fill loop: `n` labels of 16 consecutive keystream bytes each,
advancing the position by `16 * n`. -/
theorem gen_fill_loop_spec : ∀ (n : Nat) (r : RngState),
    (gen_fill_loop n r).1.length = n ∧
    (gen_fill_loop n r).2.stream = r.stream ∧
    (gen_fill_loop n r).2.pos = r.pos + 16 * n ∧
    ∀ i, i < n → (gen_fill_loop n r).1.getD i [] =
      (List.range 16).map (fun t => r.stream (r.pos + 16 * i + t) % 256) := by
  intro n
  induction n with
  | zero =>
    intro r
    exact ⟨rfl, rfl, by simp [gen_fill_loop], by omega⟩
  | succ n' ih =>
    intro r
    obtain ⟨hlen, hstr, hpos, hget⟩ := ih ⟨r.stream, r.pos + 16⟩
    refine ⟨by simpa [gen_fill_loop, fill_bytes16] using hlen,
      by simpa [gen_fill_loop, fill_bytes16] using hstr,
      by simp [gen_fill_loop, fill_bytes16, hpos]; omega, ?_⟩
    intro i hi
    cases i with
    | zero =>
      simp [gen_fill_loop, fill_bytes16]
    | succ i' =>
      have := hget i' (by omega)
      simp only [gen_fill_loop, fill_bytes16] at this ⊢
      rw [List.getD_cons_succ, this]
      congr 1
      funext t
      congr 2
      omega

/-- C8. `gen_labels` draws from the seeded RNG keystream in exactly
this order: bytes 0..15 are the delta, then `input_wire_count` 16-byte
zero-labels in primary-input order, then `inner_wire_count` 16-byte
zero-labels in gate-processing order; the returned vectors have exactly
those lengths.  Output is a pure function of the keystream (itself fixed
by the seed), so the same seed yields identical output on every call. -/
theorem C8_gen_labels_draw_order (stream : Nat → Nat) (iwc inw : Nat) :
    (gen_labels stream iwc inw).delta =
      (List.range 16).map (fun t => stream t % 256) ∧
    (gen_labels stream iwc inw).input_labels.length = iwc ∧
    (gen_labels stream iwc inw).inner_labels.length = inw ∧
    (∀ i, i < iwc → (gen_labels stream iwc inw).input_labels.getD i [] =
      (List.range 16).map (fun t => stream (16 * (1 + i) + t) % 256)) ∧
    (∀ j, j < inw → (gen_labels stream iwc inw).inner_labels.getD j [] =
      (List.range 16).map (fun t => stream (16 * (1 + iwc + j) + t) % 256)) := by
  obtain ⟨hl1, hs1, hp1, hg1⟩ := gen_fill_loop_spec iwc ⟨stream, 16⟩
  obtain ⟨hl2, hs2, hp2, hg2⟩ := gen_fill_loop_spec inw (gen_fill_loop iwc ⟨stream, 16⟩).2
  refine ⟨?_, ?_, ?_, ?_, ?_⟩
  · simp only [gen_labels, fill_bytes16]
    congr 1
    funext t
    congr 2
    omega
  · simpa [gen_labels, fill_bytes16] using hl1
  · simpa [gen_labels, fill_bytes16] using hl2
  · intro i hi
    have h := hg1 i hi
    simp only [gen_labels, fill_bytes16]
    rw [h]
    show (List.range 16).map (fun t => stream (16 + 16 * i + t) % 256) = _
    congr 1
    funext t
    have ha : 16 + 16 * i + t = 16 * (1 + i) + t := by omega
    rw [ha]
  · intro j hj
    have h := hg2 j hj
    simp only [gen_labels, fill_bytes16]
    rw [h, hs1, hp1]
    show (List.range 16).map (fun t => stream (16 + 16 * iwc + 16 * j + t) % 256) = _
    congr 1
    funext t
    have ha : 16 + 16 * iwc + 16 * j + t = 16 * (1 + iwc + j) + t := by omega
    rw [ha]

/-- Witness for C8 at a concrete keystream and counts. -/
theorem C8_gen_labels_draw_order_witness :
    (gen_labels (fun n => n) 2 1).delta =
      (List.range 16).map (fun t => (fun n : Nat => n) t % 256) ∧
    (gen_labels (fun n => n) 2 1).input_labels.length = 2 ∧
    (gen_labels (fun n => n) 2 1).inner_labels.length = 1 ∧
    (∀ i, i < 2 → (gen_labels (fun n => n) 2 1).input_labels.getD i [] =
      (List.range 16).map (fun t => (fun n : Nat => n) (16 * (1 + i) + t) % 256)) ∧
    (∀ j, j < 1 → (gen_labels (fun n => n) 2 1).inner_labels.getD j [] =
      (List.range 16).map (fun t => (fun n : Nat => n) (16 * (1 + 2 + j) + t) % 256)) :=
  C8_gen_labels_draw_order (fun n => n) 2 1

/-! ## C9 — the pad takes no gate index or nonce

The pad is a function of the two operand labels only, so two AND gates
with identical operand label pairs produce identical *pads*; but each
table entry is that pad XORed with the gate's own output label, so the
*ciphertexts* coincide only when the output labels do — with fresh inner
labels they differ, refuting the claim as stated. -/

/-- A second AND gate over the same input wires, with a different inner
label supply. -/
def ckt9 : CircuitInput := ⟨2, 2, 0, 0, 4, 1, 1, 1, [.And 0 1 2, .And 0 1 3]⟩

/-- Labels for `ckt9`: two distinct inner labels. -/
def li9 : LabelInputs :=
  ⟨cdelta, [List.replicate 16 2, List.replicate 16 3], [cinner, List.replicate 16 5]⟩

/-- The ciphertext tables of the AND gates of a garbled output. -/
def andTablesOf (r : Option GarbledOutput) : List (List Label) :=
  match r with
  | some o => o.and_tables.map (fun t => t.table)
  | none => []

/-- C9, counterexample. Two AND gates reading the same two input
wires (hence identical selected operand label pairs) but holding
distinct output labels: their first ciphertext entries differ, and the
XOR of corresponding entries equals the XOR of the two output labels —
the pads cancelled, the ciphertexts did not coincide. -/
theorem C9_identical_pads_counterexample :
    ((andTablesOf (garble_ckt ckt9 li9)).getD 0 []).getD 0 [] ≠
      ((andTablesOf (garble_ckt ckt9 li9)).getD 1 []).getD 0 [] ∧
    xor_labels (((andTablesOf (garble_ckt ckt9 li9)).getD 0 []).getD 0 [])
        (((andTablesOf (garble_ckt ckt9 li9)).getD 1 []).getD 0 []) =
      xor_labels cinner (List.replicate 16 5) := by
  exact ⟨by decide, by decide⟩

/-- Pointwise `(p ^^^ u) ^^^ (p ^^^ v) = u ^^^ v` on bytes. -/
theorem nat_xor_xor_left (p u v : Nat) : Nat.xor (Nat.xor p u) (Nat.xor p v) = Nat.xor u v := by
  have h1 : (p ^^^ u) ^^^ (p ^^^ v) = u ^^^ v := by
    rw [Nat.xor_comm p u, Nat.xor_assoc, Nat.xor_cancel_left]
  exact h1

/-- Pointwise `(u ^^^ d) ^^^ (v ^^^ d) = u ^^^ v` on bytes. -/
theorem nat_xor_xor_right (u v d : Nat) : Nat.xor (Nat.xor u d) (Nat.xor v d) = Nat.xor u v := by
  have h1 : (u ^^^ d) ^^^ (v ^^^ d) = u ^^^ v := by
    rw [Nat.xor_comm u d, Nat.xor_comm v d]
    exact nat_xor_xor_left d u v
  exact h1

/-- XOR-difference of two pads sharing the first operand: pointwise
`(p ^^^ a) ^^^ (p ^^^ b) = a ^^^ b`. -/
theorem xor_labels_pad_diff : ∀ (p a b : Label),
    p.length = a.length → a.length = b.length →
    xor_labels (xor_labels p a) (xor_labels p b) = xor_labels a b := by
  intro p
  induction p with
  | nil =>
    intro a b ha hb
    cases a with
    | nil => rfl
    | cons x xs => simp at ha
  | cons x xs ih =>
    intro a b ha hb
    cases a with
    | nil => simp at ha
    | cons y ys =>
      cases b with
      | nil => simp at hb
      | cons z zs =>
        simp only [List.length_cons, Nat.add_right_cancel_iff] at ha hb
        simp only [xor_labels, List.zipWith_cons_cons] at ih ⊢
        rw [ih ys zs ha hb, nat_xor_xor_left]

/-- Pointwise `(a ^^^ d) ^^^ (b ^^^ d) = a ^^^ b`. -/
theorem xor_labels_delta_diff : ∀ (a b d : Label),
    a.length = b.length → b.length = d.length →
    xor_labels (xor_labels a d) (xor_labels b d) = xor_labels a b := by
  intro a
  induction a with
  | nil =>
    intro b d ha hb
    cases b with
    | nil => rfl
    | cons x xs => simp at ha
  | cons x xs ih =>
    intro b d ha hb
    cases b with
    | nil => simp at ha
    | cons y ys =>
      cases d with
      | nil => simp at hb
      | cons z zs =>
        simp only [List.length_cons, Nat.add_right_cancel_iff] at ha hb
        simp only [xor_labels, List.zipWith_cons_cons] at ih ⊢
        rw [ih ys zs ha hb, nat_xor_xor_right]

/-- C9, amended. The hash pad mixes in no gate index or nonce — it is
a function of the two operand labels only — so two AND gates whose
selected operand label pairs are identical produce identical *pads*:
corresponding ciphertext entries XOR to the XOR of the corresponding
output labels, and the two tables are identical exactly when the gates
receive the same output label. -/
theorem C9_pad_no_nonce_amended (delta : Label) (idx1 idx2 : Nat)
    (in0a in1a outa in0b in1b outb : Nat) (s1 s2 : GarbleState)
    (lu lv : WireLabels) (k1 k2 : Label) (r1 r2 : List Label)
    (ha0 : s1.wires[in0a]? = some (some lu)) (ha1 : s1.wires[in1a]? = some (some lv))
    (hb0 : s2.wires[in0b]? = some (some lu)) (hb1 : s2.wires[in1b]? = some (some lv))
    (hi1 : s1.inner = k1 :: r1) (hi2 : s2.inner = k2 :: r2)
    (ho1 : outa < s1.wires.length) (ho2 : outb < s2.wires.length)
    (hk1 : k1.length = 16) (hk2 : k2.length = 16) (hd : delta.length = 16) :
    garble_step delta idx1 (.And in0a in1a outa) s1 =
      some ⟨s1.wires.set outa (some ⟨k1, xor_labels k1 delta⟩), r1,
        s1.and_tables ++
          [⟨idx1, in0a, in1a, outa,
            [xor_labels (pad_sha lu.k0 lv.k0) k1,
             xor_labels (pad_sha lu.k0 lv.k1) k1,
             xor_labels (pad_sha lu.k1 lv.k0) k1,
             xor_labels (pad_sha lu.k1 lv.k1) (xor_labels k1 delta)]⟩],
        s1.not_tables⟩ ∧
    garble_step delta idx2 (.And in0b in1b outb) s2 =
      some ⟨s2.wires.set outb (some ⟨k2, xor_labels k2 delta⟩), r2,
        s2.and_tables ++
          [⟨idx2, in0b, in1b, outb,
            [xor_labels (pad_sha lu.k0 lv.k0) k2,
             xor_labels (pad_sha lu.k0 lv.k1) k2,
             xor_labels (pad_sha lu.k1 lv.k0) k2,
             xor_labels (pad_sha lu.k1 lv.k1) (xor_labels k2 delta)]⟩],
        s2.not_tables⟩ ∧
    xor_labels (xor_labels (pad_sha lu.k0 lv.k0) k1) (xor_labels (pad_sha lu.k0 lv.k0) k2) =
      xor_labels k1 k2 ∧
    xor_labels (xor_labels (pad_sha lu.k0 lv.k1) k1) (xor_labels (pad_sha lu.k0 lv.k1) k2) =
      xor_labels k1 k2 ∧
    xor_labels (xor_labels (pad_sha lu.k1 lv.k0) k1) (xor_labels (pad_sha lu.k1 lv.k0) k2) =
      xor_labels k1 k2 ∧
    xor_labels (xor_labels (pad_sha lu.k1 lv.k1) (xor_labels k1 delta))
        (xor_labels (pad_sha lu.k1 lv.k1) (xor_labels k2 delta)) = xor_labels k1 k2 ∧
    (k1 = k2 →
      [xor_labels (pad_sha lu.k0 lv.k0) k1, xor_labels (pad_sha lu.k0 lv.k1) k1,
       xor_labels (pad_sha lu.k1 lv.k0) k1,
       xor_labels (pad_sha lu.k1 lv.k1) (xor_labels k1 delta)] =
      [xor_labels (pad_sha lu.k0 lv.k0) k2, xor_labels (pad_sha lu.k0 lv.k1) k2,
       xor_labels (pad_sha lu.k1 lv.k0) k2,
       xor_labels (pad_sha lu.k1 lv.k1) (xor_labels k2 delta)]) := by
  refine ⟨?_, ?_, ?_, ?_, ?_, ?_, ?_⟩
  · simp only [garble_step, ha0, ha1, hi1, if_pos ho1]
    rfl
  · simp only [garble_step, hb0, hb1, hi2, if_pos ho2]
    rfl
  · exact xor_labels_pad_diff _ _ _ (by rw [pad_sha_length, hk1]) (by rw [hk1, hk2])
  · exact xor_labels_pad_diff _ _ _ (by rw [pad_sha_length, hk1]) (by rw [hk1, hk2])
  · exact xor_labels_pad_diff _ _ _ (by rw [pad_sha_length, hk1]) (by rw [hk1, hk2])
  · rw [xor_labels_pad_diff _ _ _
      (by rw [pad_sha_length, xor_labels_length, hk1, hd]; rfl)
      (by rw [xor_labels_length, xor_labels_length, hk1, hk2])]
    exact xor_labels_delta_diff k1 k2 delta (by rw [hk1, hk2]) (by rw [hk2, hd])
  · intro he
    rw [he]

/-- A second concrete inner label, distinct from `cinner`. -/
def cinner2 : Label := List.replicate 16 5

/-- A concrete garbling state sharing `sW`'s input-wire labels but
holding a different inner label. -/
def sX : GarbleState := ⟨[some cwA, some cwB, none, none], [cinner2], [], []⟩

/-- Witness for the amended C9: two concrete AND gates over the same
operand labels with distinct output labels. -/
theorem C9_pad_no_nonce_amended_witness :
    garble_step cdelta 0 (.And 0 1 2) sW =
      some ⟨sW.wires.set 2 (some ⟨cinner, xor_labels cinner cdelta⟩), [],
        sW.and_tables ++
          [⟨0, 0, 1, 2,
            [xor_labels (pad_sha cwA.k0 cwB.k0) cinner,
             xor_labels (pad_sha cwA.k0 cwB.k1) cinner,
             xor_labels (pad_sha cwA.k1 cwB.k0) cinner,
             xor_labels (pad_sha cwA.k1 cwB.k1) (xor_labels cinner cdelta)]⟩],
        sW.not_tables⟩ ∧
    garble_step cdelta 1 (.And 0 1 3) sX =
      some ⟨sX.wires.set 3 (some ⟨cinner2, xor_labels cinner2 cdelta⟩), [],
        sX.and_tables ++
          [⟨1, 0, 1, 3,
            [xor_labels (pad_sha cwA.k0 cwB.k0) cinner2,
             xor_labels (pad_sha cwA.k0 cwB.k1) cinner2,
             xor_labels (pad_sha cwA.k1 cwB.k0) cinner2,
             xor_labels (pad_sha cwA.k1 cwB.k1) (xor_labels cinner2 cdelta)]⟩],
        sX.not_tables⟩ ∧
    xor_labels (xor_labels (pad_sha cwA.k0 cwB.k0) cinner)
        (xor_labels (pad_sha cwA.k0 cwB.k0) cinner2) = xor_labels cinner cinner2 ∧
    xor_labels (xor_labels (pad_sha cwA.k0 cwB.k1) cinner)
        (xor_labels (pad_sha cwA.k0 cwB.k1) cinner2) = xor_labels cinner cinner2 ∧
    xor_labels (xor_labels (pad_sha cwA.k1 cwB.k0) cinner)
        (xor_labels (pad_sha cwA.k1 cwB.k0) cinner2) = xor_labels cinner cinner2 ∧
    xor_labels (xor_labels (pad_sha cwA.k1 cwB.k1) (xor_labels cinner cdelta))
        (xor_labels (pad_sha cwA.k1 cwB.k1) (xor_labels cinner2 cdelta)) =
      xor_labels cinner cinner2 ∧
    (cinner = cinner2 →
      [xor_labels (pad_sha cwA.k0 cwB.k0) cinner, xor_labels (pad_sha cwA.k0 cwB.k1) cinner,
       xor_labels (pad_sha cwA.k1 cwB.k0) cinner,
       xor_labels (pad_sha cwA.k1 cwB.k1) (xor_labels cinner cdelta)] =
      [xor_labels (pad_sha cwA.k0 cwB.k0) cinner2, xor_labels (pad_sha cwA.k0 cwB.k1) cinner2,
       xor_labels (pad_sha cwA.k1 cwB.k0) cinner2,
       xor_labels (pad_sha cwA.k1 cwB.k1) (xor_labels cinner2 cdelta)]) :=
  C9_pad_no_nonce_amended cdelta 0 1 0 1 2 0 1 3 sW sX cwA cwB cinner cinner2 [] []
    (by rfl) (by rfl) (by rfl) (by rfl) (by rfl) (by rfl) (by decide) (by decide)
    (by rfl) (by rfl) (by rfl)

end Garbling
